import Mathlib

/-!
Shallow embedding of the `diffusions` repository (src/diffusions/):
`generic_model.py`, `gbm.py`, `vasicek.py`, `param_gbm.py`, `generic_param.py`.

Conventions of the embedding:
* Python floats are `ℝ`; NumPy 1-D arrays are `List ℝ`; 2-D arrays are
  `List (List ℝ)` (row major, as NumPy iterates over the first axis).
* A value that Python may raise on is `Except PyErr _`; `ValueError` and
  `IndexError` are the constructors of `PyErr`.
* Randomness cannot be embedded: the realized output of
  `np.random.normal(size=size, scale=h**.5)` is an explicit input `eps` of the
  simulator, while the arguments passed to the draw (its shape and its scale)
  are recorded in a `NormalDraw` value, embedded from the call site.
-/

namespace Diffusions

noncomputable section

inductive PyErr where
  | valueError : String → PyErr
  | indexError : String → PyErr
deriving Repr, DecidableEq

/-- A Python value that is either a float scalar or a NumPy 1-D array.
Used where the source checks `isinstance(loc, float)`. -/
inductive PyVal where
  | scalar : ℝ → PyVal
  | arr : List ℝ → PyVal

/-- `isinstance(v, float)` on the embedded value. -/
def PyVal.isFloat : PyVal → Bool
  | .scalar _ => true
  | .arr _ => false

/-- NumPy broadcasting of a binary arithmetic operation over scalars/1-D arrays. -/
def PyVal.map2 (f : ℝ → ℝ → ℝ) : PyVal → PyVal → PyVal
  | .scalar a, .scalar b => .scalar (f a b)
  | .scalar a, .arr bs => .arr (bs.map (fun b => f a b))
  | .arr as, .scalar b => .arr (as.map (fun a => f a b))
  | .arr as, .arr bs => .arr (List.zipWith f as bs)

/-- NumPy elementwise unary operation over a scalar/1-D array. -/
def PyVal.map1 (f : ℝ → ℝ) : PyVal → PyVal
  | .scalar a => .scalar (f a)
  | .arr as => .arr (as.map f)

/-- `np.array(vals, dtype=float)`: coercing a list whose elements must all be
scalars; a sequence element raises
`ValueError: setting an array element with a sequence.`. -/
def npArrayFloat : List PyVal → Except PyErr (List ℝ)
  | [] => .ok []
  | .scalar x :: rest => (npArrayFloat rest).map (fun xs => x :: xs)
  | .arr _ :: _ => .error (.valueError "setting an array element with a sequence.")

namespace ParamGbm

/-- `param_gbm.GBMparam`: named scalars plus the derived AJD coefficients.
In Python the `mat_*` attributes do not exist until `update_ajd` runs; the
embedding therefore only builds fully initialized records through
`GBMparam.init` and `GBMparam.update`, both of which end in `update_ajd`. -/
structure GBMparam where
  mean : ℝ
  sigma : ℝ
  measure : String
  mat_k0 : ℝ
  mat_k1 : ℝ
  mat_h0 : ℝ
  mat_h1 : ℝ

/-- `GBMparam.update_ajd` (param_gbm.py lines 64-72). -/
def GBMparam.update_ajd (p : GBMparam) : GBMparam :=
  { p with
    mat_k0 := p.mean - p.sigma ^ 2 / 2
    mat_k1 := 0
    mat_h0 := p.sigma ^ 2
    mat_h1 := 0 }

/-- `GBMparam.__init__` (param_gbm.py lines 32-51): stores the named scalars,
hard-codes `measure = 'P'`, then calls `update_ajd`. -/
def GBMparam.init (mean sigma : ℝ) : GBMparam :=
  GBMparam.update_ajd
    { mean := mean, sigma := sigma, measure := "P"
      mat_k0 := 0, mat_k1 := 0, mat_h0 := 0, mat_h1 := 0 }

/-- `GBMparam.from_theta` (param_gbm.py lines 74-86): indexing `theta[0]`,
`theta[1]` raises `IndexError` on a short vector. -/
def GBMparam.from_theta (theta : List ℝ) : Except PyErr GBMparam :=
  match theta with
  | t0 :: t1 :: _ => .ok (GBMparam.update_ajd (GBMparam.init t0 t1))
  | _ => .error (.indexError "index out of range")

/-- `GBMparam.update` (param_gbm.py lines 88-98):
`self.mean, self.sigma = theta` raises `ValueError` unless `theta` has
exactly two entries; then `update_ajd`. -/
def GBMparam.update (p : GBMparam) (theta : List ℝ) : Except PyErr GBMparam :=
  match theta with
  | [mean, sigma] => .ok (GBMparam.update_ajd { p with mean := mean, sigma := sigma })
  | _ => .error (.valueError "values to unpack")

/-- `GBMparam.get_theta` (param_gbm.py lines 124-133). -/
def GBMparam.get_theta (p : GBMparam) : List ℝ :=
  [p.mean, p.sigma]

end ParamGbm

namespace Vasicek

/-- `vasicek.VasicekParam`: named scalars plus the derived AJD coefficients. -/
structure VasicekParam where
  mean : ℝ
  kappa : ℝ
  eta : ℝ
  mat_k0 : ℝ
  mat_k1 : ℝ
  mat_h0 : ℝ
  mat_h1 : ℝ

/-- `VasicekParam.update_ajd` (vasicek.py lines 55-63). -/
def VasicekParam.update_ajd (p : VasicekParam) : VasicekParam :=
  { p with
    mat_k0 := p.kappa * p.mean
    mat_k1 := -p.kappa
    mat_h0 := p.eta ^ 2
    mat_h1 := 0 }

/-- `VasicekParam.__init__` (vasicek.py lines 37-53). -/
def VasicekParam.init (mean kappa eta : ℝ) : VasicekParam :=
  VasicekParam.update_ajd
    { mean := mean, kappa := kappa, eta := eta
      mat_k0 := 0, mat_k1 := 0, mat_h0 := 0, mat_h1 := 0 }

/-- `VasicekParam.get_theta` (vasicek.py lines 65-74). -/
def VasicekParam.get_theta (p : VasicekParam) : List ℝ :=
  [p.mean, p.kappa, p.eta]

/-- `VasicekParam.update` (vasicek.py lines 76-86):
`[self.mean, self.kappa, self.eta] = theta` raises `ValueError` unless
`theta` has exactly three entries; then `update_ajd`. -/
def VasicekParam.update (p : VasicekParam) (theta : List ℝ) : Except PyErr VasicekParam :=
  match theta with
  | [mean, kappa, eta] =>
      .ok (VasicekParam.update_ajd { p with mean := mean, kappa := kappa, eta := eta })
  | _ => .error (.valueError "values to unpack")

end Vasicek

/-! ### generic_model.py: the `SDE` class -/

/-- The data a concrete `SDE` subclass supplies: the pure `drift` and `diff`
(diffusion) functions over a state and a parameter object of type `Θ`
(generic_model.py relies on the subclass defining them). Both are applied
elementwise by NumPy broadcasting over a state row of `S` simulations. -/
structure SDEModel (Θ : Type) where
  drift : ℝ → Θ → ℝ
  diff : ℝ → Θ → ℝ

namespace SDE

/-- `SDE.euler_loc` (generic_model.py lines 45-46): `drift(x, theta) * h`,
where `h` is the instance attribute set by `simulate`. -/
def euler_loc {Θ : Type} (m : SDEModel Θ) (h : ℝ) (x : ℝ) (theta : Θ) : ℝ :=
  m.drift x theta * h

/-- `SDE.euler_scale` (generic_model.py lines 48-49): `diff(x, theta) * h**.5`. -/
def euler_scale {Θ : Type} (m : SDEModel Θ) (h : ℝ) (x : ℝ) (theta : Θ) : ℝ :=
  m.diff x theta * Real.sqrt h

/-- `SDE.sim` (generic_model.py lines 51-57), applied to one row `z` of `S`
states and one row `error` of `S` realized errors. Note that the local `M` of
the source is `error.shape[0]`, the length of that row:
`euler_loc(z, theta) / M + euler_scale(z, theta) / M**.5 * error`,
computed elementwise; the old state `z` enters only through `drift`/`diff`. -/
def sim {Θ : Type} (m : SDEModel Θ) (theta : Θ) (h : ℝ) (z error : List ℝ) : List ℝ :=
  let M : ℕ := error.length
  List.zipWith
    (fun zi ei => euler_loc m h zi theta / M + euler_scale m h zi theta / Real.sqrt M * ei)
    z error

end SDE

/-- Module-level `reduce` (generic_model.py lines 113-116):
`for e in eps: x = sim(x, e)`, iterating over the sub-step rows of one
`(M, S)` error block. -/
def reduce (simf : List ℝ → List ℝ → List ℝ) (eps : List (List ℝ)) (x : List ℝ) : List ℝ :=
  eps.foldl (fun x e => simf x e) x

namespace SDE

/-- The arguments `simulate` passes to `np.random.normal` (generic_model.py
lines 80-81): the `size` tuple and the `scale` (standard deviation). -/
structure NormalDraw where
  size : List ℕ
  scale : ℝ

/-- Row `n` of the array `x` of `simulate` after the loop
(generic_model.py lines 82-85): `x = np.ones((N, S)) * x0`, then
`x[n+1] = reduce(self.sim, self.eps[n], x[n])` for `n` in `range(N-1)`.
`eps n` is the realized `(M, S)` error block `self.eps[n]`. -/
def simRow {Θ : Type} (m : SDEModel Θ) (theta : Θ) (h : ℝ) (eps : ℕ → List (List ℝ))
    (x0 : ℝ) (S : ℕ) : ℕ → List ℝ
  | 0 => List.replicate S x0
  | n + 1 => reduce (sim m theta h) (eps n) (simRow m theta h eps x0 S n)

/-- The full `(N, S)` array `x` of `simulate` after the loop. -/
def simRows {Θ : Type} (m : SDEModel Θ) (theta : Θ) (h : ℝ) (eps : ℕ → List (List ℝ))
    (x0 : ℝ) (N S : ℕ) : List (List ℝ) :=
  (List.range N).map (simRow m theta h eps x0 S)

/-- `self.paths` after `simulate` (generic_model.py lines 87-90): the `(N, S)`
array when `S > 1`, else `x.flatten()`. -/
inductive Paths where
  | matrix : List (List ℝ) → Paths
  | flat : List ℝ → Paths

/-- The instance attributes written by `SDE.simulate` together with its return
value. `simulate` ends without a `return` statement, so it returns `None`. -/
structure SimulateResult where
  h : ℝ
  N : ℕ
  epsDraw : NormalDraw
  paths : Paths
  ret : Option Unit

/-- `SDE.simulate` (generic_model.py lines 59-90). The realized value of
`np.random.normal(size=(N, M, S), scale=h**.5)` is the input `eps`
(indexed as `eps n` for the block `self.eps[n]` of shape `(M, S)`); the
distribution arguments of the draw are recorded in `epsDraw`. -/
def simulate {Θ : Type} (m : SDEModel Θ) (theta : Θ) (x0 h : ℝ) (M N S : ℕ)
    (eps : ℕ → List (List ℝ)) : SimulateResult :=
  let x := simRows m theta h eps x0 N S
  { h := h
    N := N
    epsDraw := { size := [N, M, S], scale := Real.sqrt h }
    paths := if 1 < S then .matrix x else .flat x.flatten
    ret := none }

end SDE

/-! ### The specification's view of the error draw, for comparison (claim C2).
This definition follows the spec's words, not the source: shape
`(N−1, M, S, nvars)`, independent standard normals, not pre-scaled. -/

/-- Stated from the spec (not the source): the error tensor the spec describes,
with shape `(N−1, M, S, nvars)` and standard deviation `1`. -/
def specDraw (M N S nvars : ℕ) : SDE.NormalDraw :=
  { size := [N - 1, M, S, nvars], scale := 1 }

/-! ### gbm.py: the `GBM` model and its moment conditions -/

namespace Gbm

/-- `gbm.GBMparam` (gbm.py lines 19-35): the lightweight parameter holder of
the gbm module, distinct from `param_gbm.GBMparam`. The fields may be floats
or arrays, as in `betamat`, which builds one from entries of a possibly
higher-dimensional `theta`. -/
structure GBMparam where
  mean : PyVal
  sigma : PyVal

/-- `GBM.drift` (gbm.py lines 75-91): `theta.mean - theta.sigma**2/2`, here at
scalar parameters as used by the simulator. -/
def drift (_x : ℝ) (theta : ℝ × ℝ) : ℝ :=
  theta.1 - theta.2 ^ 2 / 2

/-- `GBM.diff` (gbm.py lines 93-109): `theta.sigma`. -/
def diff (_x : ℝ) (theta : ℝ × ℝ) : ℝ :=
  theta.2

/-- The `GBM` subclass as a drift/diffusion pair for the generic simulator,
with `theta = (mean, sigma)`. -/
def model : SDEModel (ℝ × ℝ) :=
  { drift := drift, diff := diff }

/-- Modelled from the spec: `exact_loc`, the one-interval conditional mean, is
called by `betamat`/`gammamat` but is not defined anywhere under src/. For GBM
the one-interval conditional mean of the log-return is
`(mean - sigma**2/2) * interval`; it is a float exactly when the parameter
entries are floats, an array when they are arrays (NumPy broadcasting). -/
def exact_loc (interval : ℝ) (theta : GBMparam) : PyVal :=
  PyVal.map2 (fun a b => a * b)
    (PyVal.map2 (fun a b => a - b) theta.mean (PyVal.map1 (fun s => s ^ 2 / 2) theta.sigma))
    (PyVal.scalar interval)

/-- Modelled from the spec: `exact_scale`, the one-interval conditional
standard deviation, is called by `gammamat` but is not defined anywhere under
src/. For GBM it is `sigma * interval**.5`. -/
def exact_scale (interval : ℝ) (theta : GBMparam) : PyVal :=
  PyVal.map2 (fun a b => a * b) theta.sigma (PyVal.scalar (Real.sqrt interval))

/-- `GBM.betamat` (gbm.py lines 111-129): builds a `GBMparam` from
`theta[0], theta[1]` (raising `IndexError` on a short vector), raises
`ValueError` when `exact_loc` is not a float, and returns
`np.array([loc, 0], dtype=float)`. -/
def betamat (interval : ℝ) (theta : List PyVal) : Except PyErr (List ℝ) :=
  match theta with
  | t0 :: t1 :: _ =>
      let loc := exact_loc interval { mean := t0, sigma := t1 }
      if loc.isFloat then npArrayFloat [loc, PyVal.scalar 0]
      else .error (.valueError "Location and scale should be scalars!")
  | _ => .error (.indexError "index out of range")

/-- `GBM.gammamat` (gbm.py lines 131-150): like `betamat` but computes both
`exact_loc` and `exact_scale`, checks only that the scale is a float, and
returns `np.array([loc**2 + scale**2, 0], dtype=float)`. -/
def gammamat (interval : ℝ) (theta : List PyVal) : Except PyErr (List ℝ) :=
  match theta with
  | t0 :: t1 :: _ =>
      let loc := exact_loc interval { mean := t0, sigma := t1 }
      let scale := exact_scale interval { mean := t0, sigma := t1 }
      if scale.isFloat then
        npArrayFloat [PyVal.map2 (fun a b => a + b)
          (PyVal.map1 (fun a => a ^ 2) loc) (PyVal.map1 (fun a => a ^ 2) scale),
          PyVal.scalar 0]
      else .error (.valueError "Location and scale should be scalars!")
  | _ => .error (.indexError "index out of range")

/-- `betamat` as the plain vector-to-vector function handed to
`nd.Jacobian` in `dbetamat` (gbm.py lines 152-166); on the float parameter
vectors the differentiator evaluates it at, it never raises. -/
def betamatF (interval : ℝ) (theta : List ℝ) : List ℝ :=
  match betamat interval (theta.map PyVal.scalar) with
  | .ok v => v
  | .error _ => []

/-- `gammamat` as the plain vector-to-vector function handed to
`nd.Jacobian` in `dgammamat` (gbm.py lines 168-182). -/
def gammamatF (interval : ℝ) (theta : List ℝ) : List ℝ :=
  match gammamat interval (theta.map PyVal.scalar) with
  | .ok v => v
  | .error _ => []

/-- `statsmodels.tsa.tsatools.lagmat(x, maxlag)` on a 1-D input with the
default `trim='forward'`, `original='ex'`: a `(len(x), maxlag)` array whose
row `t`, column `k` holds `x[t-k-1]`, zero where that index is negative. -/
def lagmat (x : List ℝ) (maxlag : ℕ) : List (List ℝ) :=
  (List.range x.length).map (fun t =>
    (List.range maxlag).map (fun k => if k + 1 ≤ t then x.getD (t - (k + 1)) 0 else 0))

/-- NumPy `.T` on a rectangular, nonempty 2-D array stored row major. -/
def npTranspose (m : List (List ℝ)) : List (List ℝ) :=
  (List.range (m.headD []).length).map (fun j => m.map (fun row => row.getD j 0))

/-- NumPy dot product of two equal-length 1-D arrays. -/
def dot (a b : List ℝ) : ℝ :=
  (List.zipWith (fun x y => x * y) a b).sum

/-- `GBM.momcond` (gbm.py lines 221-263), with `datalag = 1`, `instrlag = 2`
hard-coded as in the source. The numerical differentiator `nd.Jacobian` used
by `dbetamat`/`dgammamat` (gbm.py lines 152-182) is an external library and is
passed in as `jac`, applied to the coefficient functions and `theta`.
`interval` is the instance attribute `self.interval`. -/
def momcond (jac : (List ℝ → List ℝ) → List ℝ → List (List ℝ))
    (interval : ℝ) (theta data : List ℝ) :
    Except PyErr (List (List ℝ) × List (List ℝ)) :=
  let datalag : ℕ := 1
  let instrlag : ℕ := 2
  let lagdata := (lagmat data datalag).drop datalag
  let nobs := lagdata.length
  let datamat := lagdata.map (fun row => 1 :: row)
  match betamat interval (theta.map PyVal.scalar),
        gammamat interval (theta.map PyVal.scalar) with
  | .ok beta, .ok gamma =>
      let errors :=
        [List.zipWith (fun y row => y - dot row beta) (data.drop datalag) datamat,
         List.zipWith (fun y row => y ^ 2 - dot row gamma) (data.drop datalag) datamat]
      let instruments :=
        npTranspose ((lagmat (data.dropLast) instrlag).map (fun row => 1 :: row))
      let mom :=
        (instruments.map (fun instr =>
          errors.map (fun erow => List.zipWith (fun x y => x * y) erow instr))).flatten
      let dmom :=
        (instruments.map (fun instr =>
          let meandata :=
            (npTranspose datamat).map (fun col =>
              (List.zipWith (fun x y => x * y) col instr).sum / (nobs : ℝ))
          let dbeta := jac (betamatF interval) theta
          let dgamma := jac (gammamatF interval) theta
          [(npTranspose dbeta).map (fun col => -(dot meandata col)),
           (npTranspose dgamma).map (fun col => -(dot meandata col))])).flatten
      .ok (npTranspose mom, dmom)
  | .error e, _ => .error e
  | .ok _, .error e => .error e

end Gbm

end

/-! ## Theorems -/

/-- Claim C6: for every parameter vector `theta` of the model's parameter
count (2 for GBM), `GBMparam.from_theta(theta).get_theta() == theta` exactly. -/
theorem from_theta_get_theta_roundtrip (theta : List ℝ) (h : theta.length = 2) :
    (ParamGbm.GBMparam.from_theta theta).map ParamGbm.GBMparam.get_theta =
      Except.ok theta := by
  rcases theta with _ | ⟨a, _ | ⟨b, rest⟩⟩
  · simp at h
  · simp at h
  · rcases rest with _ | ⟨c, rest⟩
    · rfl
    · simp at h

/-- Witness for C6 at `theta = [1, 2]`. -/
theorem from_theta_get_theta_roundtrip_witness :
    ([(1 : ℝ), 2].length = 2) ∧
      (ParamGbm.GBMparam.from_theta [(1 : ℝ), 2]).map ParamGbm.GBMparam.get_theta =
        Except.ok [(1 : ℝ), 2] :=
  ⟨rfl, from_theta_get_theta_roundtrip [(1 : ℝ), 2] rfl⟩

/-- Claim C7: after construction (`GBMparam.init`, which ends in `update_ajd`)
and after every successful `update(theta)`, the derived AJD coefficients equal
their closed-form projection of the named scalars:
`mat_k0 = mean - sigma^2/2`, `mat_k1 = 0`, `mat_h0 = sigma^2`, `mat_h1 = 0`. -/
theorem ajd_projection (mean sigma : ℝ) (p : ParamGbm.GBMparam) :
    ((ParamGbm.GBMparam.init mean sigma).mat_k0 = mean - sigma ^ 2 / 2 ∧
     (ParamGbm.GBMparam.init mean sigma).mat_k1 = 0 ∧
     (ParamGbm.GBMparam.init mean sigma).mat_h0 = sigma ^ 2 ∧
     (ParamGbm.GBMparam.init mean sigma).mat_h1 = 0) ∧
    ∃ q, ParamGbm.GBMparam.update p [mean, sigma] = Except.ok q ∧
      q.mean = mean ∧ q.sigma = sigma ∧
      q.mat_k0 = mean - sigma ^ 2 / 2 ∧ q.mat_k1 = 0 ∧
      q.mat_h0 = sigma ^ 2 ∧ q.mat_h1 = 0 :=
  ⟨⟨rfl, rfl, rfl, rfl⟩, _, rfl, rfl, rfl, rfl, rfl, rfl, rfl⟩

/-- Claim C8: `update(theta)` assigns the named scalars positionally and
raises `ValueError` exactly when the length of `theta` differs from the
model's parameter count (2 for GBM, 3 for Vasicek); on a correctly sized
`theta` it succeeds. -/
theorem update_length_check (p : ParamGbm.GBMparam) (q : Vasicek.VasicekParam)
    (theta : List ℝ) :
    ((∃ msg, ParamGbm.GBMparam.update p theta = Except.error (.valueError msg)) ↔
      theta.length ≠ 2) ∧
    ((∃ msg, Vasicek.VasicekParam.update q theta = Except.error (.valueError msg)) ↔
      theta.length ≠ 3) ∧
    (∀ a b : ℝ, ∃ r, ParamGbm.GBMparam.update p [a, b] = Except.ok r ∧
      r.mean = a ∧ r.sigma = b) ∧
    (∀ a b c : ℝ, ∃ r, Vasicek.VasicekParam.update q [a, b, c] = Except.ok r ∧
      r.mean = a ∧ r.kappa = b ∧ r.eta = c) := by
  refine ⟨?_, ?_, fun a b => ⟨_, rfl, rfl, rfl⟩, fun a b c => ⟨_, rfl, rfl, rfl, rfl⟩⟩
  · rcases theta with _ | ⟨a, _ | ⟨b, _ | ⟨c, rest⟩⟩⟩ <;>
      simp [ParamGbm.GBMparam.update]
  · rcases theta with _ | ⟨a, _ | ⟨b, _ | ⟨c, _ | ⟨d, rest⟩⟩⟩⟩ <;>
      simp [Vasicek.VasicekParam.update]

/-- Witness for C8: at `theta = [5]` both updates raise `ValueError`, and the
correctly sized updates succeed with positional assignment. -/
theorem update_length_check_witness :
    (∃ msg, ParamGbm.GBMparam.update (ParamGbm.GBMparam.init 0 0.2) [(5 : ℝ)] =
      Except.error (.valueError msg)) ∧
    (∃ msg, Vasicek.VasicekParam.update (Vasicek.VasicekParam.init 0.5 1.5 0.1) [(5 : ℝ)] =
      Except.error (.valueError msg)) ∧
    (∃ r, ParamGbm.GBMparam.update (ParamGbm.GBMparam.init 0 0.2) [(3 : ℝ), 4] =
      Except.ok r ∧ r.mean = 3 ∧ r.sigma = 4) :=
  ⟨(update_length_check (ParamGbm.GBMparam.init 0 0.2)
      (Vasicek.VasicekParam.init 0.5 1.5 0.1) [(5 : ℝ)]).1.mpr (by simp),
   (update_length_check (ParamGbm.GBMparam.init 0 0.2)
      (Vasicek.VasicekParam.init 0.5 1.5 0.1) [(5 : ℝ)]).2.1.mpr (by simp),
   (update_length_check (ParamGbm.GBMparam.init 0 0.2)
      (Vasicek.VasicekParam.init 0.5 1.5 0.1) [(5 : ℝ)]).2.2.1 3 4⟩

/-! Shape lemmas for the simulator. -/

theorem sim_length {Θ : Type} (m : SDEModel Θ) (theta : Θ) (h : ℝ) (z e : List ℝ) :
    (SDE.sim m theta h z e).length = min z.length e.length := by
  simp [SDE.sim]

theorem reduce_sim_length {Θ : Type} (m : SDEModel Θ) (theta : Θ) (h : ℝ) (S : ℕ)
    (eps : List (List ℝ)) (heps : ∀ r ∈ eps, r.length = S) :
    ∀ x : List ℝ, x.length = S → (reduce (SDE.sim m theta h) eps x).length = S := by
  induction eps with
  | nil => intro x hx; simpa [reduce] using hx
  | cons e rest ih =>
      intro x hx
      have hrest : ∀ r ∈ rest, r.length = S := fun r hr => heps r (List.mem_cons_of_mem e hr)
      have hstep : (SDE.sim m theta h x e).length = S := by
        rw [sim_length, hx, heps e (List.mem_cons_self e rest)]
        exact Nat.min_self S
      simpa [reduce] using ih hrest (SDE.sim m theta h x e) hstep

theorem simRow_length {Θ : Type} (m : SDEModel Θ) (theta : Θ) (h : ℝ)
    (eps : ℕ → List (List ℝ)) (x0 : ℝ) (S : ℕ)
    (heps : ∀ n, ∀ r ∈ eps n, r.length = S) :
    ∀ n, (SDE.simRow m theta h eps x0 S n).length = S := by
  intro n
  induction n with
  | zero => simp [SDE.simRow]
  | succ n ih =>
      rw [SDE.simRow]
      exact reduce_sim_length m theta h S (eps n) (heps n) _ ih

theorem simRows_shape {Θ : Type} (m : SDEModel Θ) (theta : Θ) (h : ℝ)
    (eps : ℕ → List (List ℝ)) (x0 : ℝ) (N S : ℕ)
    (heps : ∀ n, ∀ r ∈ eps n, r.length = S) :
    (SDE.simRows m theta h eps x0 N S).length = N ∧
      ∀ row ∈ SDE.simRows m theta h eps x0 N S, row.length = S := by
  constructor
  · simp [SDE.simRows]
  · intro row hrow
    simp only [SDE.simRows, List.mem_map] at hrow
    obtain ⟨n, _, rfl⟩ := hrow
    exact simRow_length m theta h eps x0 S heps n

/-- Claim C10: for every `simulate` call with `N ≥ 1` the first row of the
recorded path history equals the starting value `x0` broadcast across all `S`
paths; the Euler loop writes only rows `1 .. N-1`. -/
theorem simulate_first_row {Θ : Type} (m : SDEModel Θ) (theta : Θ) (x0 h : ℝ)
    (M N S : ℕ) (eps : ℕ → List (List ℝ)) (hN : 1 ≤ N) :
    (2 ≤ S → ∃ rest, (SDE.simulate m theta x0 h M N S eps).paths =
        SDE.Paths.matrix (List.replicate S x0 :: rest)) ∧
    (S = 1 → ∃ rest, (SDE.simulate m theta x0 h M N S eps).paths =
        SDE.Paths.flat (x0 :: rest)) := by
  obtain ⟨N', rfl⟩ : ∃ N', N = N' + 1 := ⟨N - 1, (Nat.succ_pred_eq_of_pos hN).symm⟩
  have hx : SDE.simRows m theta h eps x0 (N' + 1) S =
      List.replicate S x0 ::
        (List.range N').map (fun n => SDE.simRow m theta h eps x0 S (n + 1)) := by
    simp [SDE.simRows, List.range_succ_eq_map, List.map_map, Function.comp_def, SDE.simRow]
  constructor
  · intro hS
    refine ⟨(List.range N').map (fun n => SDE.simRow m theta h eps x0 S (n + 1)), ?_⟩
    simp only [SDE.simulate, hx]
    rw [if_pos (by omega : 1 < S)]
  · intro hS
    subst hS
    refine ⟨((List.range N').map
      (fun n => SDE.simRow m theta h eps x0 1 (n + 1))).flatten, ?_⟩
    simp only [SDE.simulate, hx]
    rw [if_neg (by omega : ¬ 1 < 1)]
    simp

/-- Witness for C10 at a concrete GBM run with `N = 3`, `S = 2`, `x0 = 5`. -/
theorem simulate_first_row_witness :
    (1 ≤ 3) ∧ ∃ rest,
      (SDE.simulate Gbm.model (1.5, 0.2) 5 1 1 3 2 (fun _ => [])).paths =
        SDE.Paths.matrix (List.replicate 2 5 :: rest) :=
  ⟨by norm_num,
    (simulate_first_row Gbm.model (1.5, 0.2) 5 1 1 3 2 (fun _ => [])
      (by norm_num)).1 (by norm_num)⟩

/-- Claim C1 (code bug): evaluation of the source's Euler sub-step at a
concrete input. With GBM parameters `(1.5, 0.2)`, `h = 1`, a state row
`[1, 1]` (two paths) and a zero error row, `SDE.sim` yields `0.74` per path:
the increment `drift·h` divided by `error.shape[0] = 2` (the number of paths,
not the number of sub-steps) with the old state dropped — not the claimed
`state + drift·(h/M) + diff·sqrt(h/M)·error = 1 + 1.48 = 2.48` (for `M = 1`
sub-step), contradicting the discretization formula in the class docstring. -/
theorem sim_drops_state :
    SDE.sim Gbm.model (1.5, 0.2) 1 [1, 1] [0, 0] = [0.74, 0.74] ∧
      (0.74 : ℝ) ≠
        1 + Gbm.drift 1 (1.5, 0.2) * (1 / 1) +
          Gbm.diff 1 (1.5, 0.2) * Real.sqrt (1 / 1) * 0 := by
  constructor
  · simp only [SDE.sim, SDE.euler_loc, SDE.euler_scale, Gbm.model, Gbm.drift, Gbm.diff,
      List.zipWith, List.length_cons, List.length_nil, mul_zero, zero_mul, add_zero]
    norm_num
  · simp only [Gbm.drift, mul_zero, add_zero]
    norm_num

/-- Claim C2 (counterexample): at `h = 4`, `M = 2`, `N = 3`, `S = 5` the
arguments the source passes to `np.random.normal` are shape `(3, 2, 5)` with
scale `sqrt 4 = 2`, not the claimed shape `(N−1, M, S, nvars) = (2, 2, 5, 1)`
with unit scale. -/
theorem eps_draw_refutes_spec :
    (SDE.simulate Gbm.model (1.5, 0.2) 1 4 2 3 5 (fun _ => [])).epsDraw ≠
        specDraw 2 3 5 1 ∧
      (SDE.simulate Gbm.model (1.5, 0.2) 1 4 2 3 5 (fun _ => [])).epsDraw.scale ≠ 1 := by
  constructor
  · intro hEq
    have hsize := congrArg SDE.NormalDraw.size hEq
    simp [SDE.simulate, specDraw] at hsize
  · have h4 : Real.sqrt 4 = 2 := by
      rw [show (4 : ℝ) = 2 ^ 2 by norm_num]
      exact Real.sqrt_sq (by norm_num)
    simp [SDE.simulate, h4]

/-- Claim C2 (amended): the error tensor is drawn with shape `(N, M, S)` and
standard deviation `sqrt h` — pre-scaled by the interval length at draw time,
so its variance is `h` — and the per-step update then multiplies the error by
the further factor `euler_scale / sqrt(error.shape[0]) =
diff · sqrt(h) / sqrt(error.shape[0])`, so the interval-length factor
`sqrt h` is applied a second time inside each sub-step. -/
theorem eps_draw_prescaled {Θ : Type} (m : SDEModel Θ) (theta : Θ) (x0 h : ℝ)
    (M N S : ℕ) (eps : ℕ → List (List ℝ)) (hh : 0 ≤ h) :
    (SDE.simulate m theta x0 h M N S eps).epsDraw.size = [N, M, S] ∧
      (SDE.simulate m theta x0 h M N S eps).epsDraw.scale ^ 2 = h ∧
      ∀ z error : List ℝ, SDE.sim m theta h z error =
        List.zipWith (fun zi ei =>
          m.drift zi theta * h / (error.length : ℝ) +
            m.diff zi theta * Real.sqrt h / Real.sqrt (error.length : ℝ) * ei) z error :=
  ⟨rfl, Real.sq_sqrt hh, fun _ _ => rfl⟩

/-- Witness for the amended C2 at `h = 4`, `M = 2`, `N = 3`, `S = 5`, with the
per-step factor instantiated at a one-entry state and error row. -/
theorem eps_draw_prescaled_witness :
    ((0 : ℝ) ≤ 4) ∧
      (SDE.simulate Gbm.model (1.5, 0.2) 1 4 2 3 5 (fun _ => [])).epsDraw.size =
        [3, 2, 5] ∧
      (SDE.simulate Gbm.model (1.5, 0.2) 1 4 2 3 5 (fun _ => [])).epsDraw.scale ^ 2 = 4 ∧
      SDE.sim Gbm.model (1.5, 0.2) 4 [1] [1] =
        List.zipWith (fun zi ei =>
          Gbm.model.drift zi (1.5, 0.2) * 4 / (([(1 : ℝ)].length : ℕ) : ℝ) +
            Gbm.model.diff zi (1.5, 0.2) * Real.sqrt 4 /
              Real.sqrt (([(1 : ℝ)].length : ℕ) : ℝ) * ei) [1] [1] :=
  ⟨by norm_num,
    (eps_draw_prescaled Gbm.model (1.5, 0.2) 1 4 2 3 5 (fun _ => []) (by norm_num)).1,
    (eps_draw_prescaled Gbm.model (1.5, 0.2) 1 4 2 3 5 (fun _ => []) (by norm_num)).2.1,
    (eps_draw_prescaled Gbm.model (1.5, 0.2) 1 4 2 3 5 (fun _ => [])
      (by norm_num)).2.2 [1] [1]⟩

/-- Claim C3 (code bug): evaluation of `simulate` at `x0 = 1`, `h = 0.5`,
`M = 3`, `N = 10`, `S = 4` on GBM: the call stores `self.paths` as an
`(N, S) = (10, 4)` array and returns `None`, rather than returning a
`(10, 2·4, 1)` path tensor. -/
theorem simulate_stores_n_by_s :
    ∃ rows,
      (SDE.simulate Gbm.model (1.5, 0.2) 1 0.5 3 10 4
          (fun _ => List.replicate 3 (List.replicate 4 0))).paths =
        SDE.Paths.matrix rows ∧
      rows.length = 10 ∧ (∀ row ∈ rows, row.length = 4) ∧
      (SDE.simulate Gbm.model (1.5, 0.2) 1 0.5 3 10 4
          (fun _ => List.replicate 3 (List.replicate 4 0))).ret = none := by
  have heps : ∀ n : ℕ, ∀ r ∈ List.replicate 3 (List.replicate 4 (0 : ℝ)), r.length = 4 := by
    intro n r hr
    rw [List.eq_of_mem_replicate hr]
    simp
  obtain ⟨hlen, hrows⟩ := simRows_shape Gbm.model (1.5, 0.2) 0.5
    (fun _ => List.replicate 3 (List.replicate 4 0)) 1 10 4 heps
  refine ⟨SDE.simRows Gbm.model (1.5, 0.2) 0.5
    (fun _ => List.replicate 3 (List.replicate 4 0)) 1 10 4, ?_, hlen, hrows, rfl⟩
  simp only [SDE.simulate]
  rw [if_pos (by norm_num : (1 : ℕ) < 4)]

/-- Claim C4 (code bug): evaluation of `simulate` with noise at `S = 4`: every
row of the stored path array has exactly `S = 4` columns, so there is no
column `i + S` carrying an antithetic (negated-noise) copy of column `i`;
the claimed `2S = 8` columns do not exist. -/
theorem simulate_no_antithetic :
    ∃ rows,
      (SDE.simulate Gbm.model (1.5, 0.2) 1 1 1 3 4
          (fun _ => [[1, 1, 1, 1]])).paths = SDE.Paths.matrix rows ∧
      rows.length = 3 ∧ (∀ row ∈ rows, row.length = 4) ∧
      ∀ row ∈ rows, row.length ≠ 2 * 4 := by
  have heps : ∀ n : ℕ, ∀ r ∈ [[(1 : ℝ), 1, 1, 1]], r.length = 4 := by
    intro n r hr
    rw [List.mem_singleton.mp hr]
    rfl
  obtain ⟨hlen, hrows⟩ := simRows_shape Gbm.model (1.5, 0.2) 1
    (fun _ => [[1, 1, 1, 1]]) 1 3 4 heps
  refine ⟨SDE.simRows Gbm.model (1.5, 0.2) 1 (fun _ => [[1, 1, 1, 1]]) 1 3 4, ?_,
    hlen, hrows, fun row hrow => by rw [hrows row hrow]; norm_num⟩
  simp only [SDE.simulate]
  rw [if_pos (by norm_num : (1 : ℕ) < 4)]

/-- Claim C9: whenever `exact_loc` or `exact_scale` does not reduce to a float
for the given parameterization, both `betamat` and `gammamat` fail with a
`ValueError` (either through their explicit scalar check or through the
`np.array(..., dtype=float)` coercion) rather than silently mishandling the
non-scalar value. -/
theorem betamat_gammamat_valueerror (interval : ℝ) (mean sigma : PyVal)
    (rest : List PyVal)
    (h : (Gbm.exact_loc interval { mean := mean, sigma := sigma }).isFloat = false ∨
      (Gbm.exact_scale interval { mean := mean, sigma := sigma }).isFloat = false) :
    (∃ msg, Gbm.betamat interval (mean :: sigma :: rest) =
      Except.error (.valueError msg)) ∧
    (∃ msg, Gbm.gammamat interval (mean :: sigma :: rest) =
      Except.error (.valueError msg)) := by
  cases mean with
  | scalar a =>
      cases sigma with
      | scalar b =>
          exfalso
          rcases h with h | h <;>
            simp [Gbm.exact_loc, Gbm.exact_scale, PyVal.map2, PyVal.map1,
              PyVal.isFloat] at h
      | arr bs => exact ⟨⟨_, rfl⟩, ⟨_, rfl⟩⟩
  | arr as =>
      cases sigma with
      | scalar b => exact ⟨⟨_, rfl⟩, ⟨_, rfl⟩⟩
      | arr bs => exact ⟨⟨_, rfl⟩, ⟨_, rfl⟩⟩

/-- Witness for C9 at `mean` a one-element array and `sigma = 1`. -/
theorem betamat_gammamat_valueerror_witness :
    ((Gbm.exact_loc 1 { mean := PyVal.arr [1], sigma := PyVal.scalar 1 }).isFloat = false ∨
      (Gbm.exact_scale 1 { mean := PyVal.arr [1], sigma := PyVal.scalar 1 }).isFloat =
        false) ∧
    (∃ msg, Gbm.betamat 1 [PyVal.arr [1], PyVal.scalar 1] =
      Except.error (.valueError msg)) ∧
    (∃ msg, Gbm.gammamat 1 [PyVal.arr [1], PyVal.scalar 1] =
      Except.error (.valueError msg)) :=
  ⟨Or.inl rfl,
    (betamat_gammamat_valueerror 1 (PyVal.arr [1]) (PyVal.scalar 1) [] (Or.inl rfl)).1,
    (betamat_gammamat_valueerror 1 (PyVal.arr [1]) (PyVal.scalar 1) [] (Or.inl rfl)).2⟩

/-! List-shape helper lemmas for the moment-condition machinery. -/

theorem headD_mem {α : Type} (l : List α) (d : α) (h : l ≠ []) : l.headD d ∈ l := by
  cases l with
  | nil => exact absurd rfl h
  | cons x xs => exact List.mem_cons_self x xs

theorem length_flatten_const {α : Type} (L : List (List α)) (k : ℕ)
    (h : ∀ b ∈ L, b.length = k) : L.flatten.length = L.length * k := by
  induction L with
  | nil => simp
  | cons b rest ih =>
      have hb := h b (List.mem_cons_self b rest)
      have hrest := ih fun c hc => h c (List.mem_cons_of_mem b hc)
      simp [hb, hrest, Nat.succ_mul, Nat.add_comm]

theorem lagmat_length (x : List ℝ) (k : ℕ) : (Gbm.lagmat x k).length = x.length := by
  simp [Gbm.lagmat]

theorem lagmat_mem_length (x : List ℝ) (k : ℕ) :
    ∀ row ∈ Gbm.lagmat x k, row.length = k := by
  intro row hrow
  simp only [Gbm.lagmat, List.mem_map] at hrow
  obtain ⟨t, _, rfl⟩ := hrow
  simp

theorem npTranspose_length (m : List (List ℝ)) :
    (Gbm.npTranspose m).length = (m.headD []).length := by
  simp [Gbm.npTranspose]

theorem npTranspose_mem_length (m : List (List ℝ)) :
    ∀ row ∈ Gbm.npTranspose m, row.length = m.length := by
  intro row hrow
  simp only [Gbm.npTranspose, List.mem_map, List.mem_range] at hrow
  obtain ⟨j, _, rfl⟩ := hrow
  simp

theorem betamat_scalar (interval a b : ℝ) (rest : List PyVal) :
    Gbm.betamat interval (PyVal.scalar a :: PyVal.scalar b :: rest) =
      Except.ok [(a - b ^ 2 / 2) * interval, 0] := rfl

theorem gammamat_scalar (interval a b : ℝ) (rest : List PyVal) :
    Gbm.gammamat interval (PyVal.scalar a :: PyVal.scalar b :: rest) =
      Except.ok [((a - b ^ 2 / 2) * interval) ^ 2 + (b * Real.sqrt interval) ^ 2, 0] := rfl

theorem betamatF_pair (interval a b : ℝ) :
    Gbm.betamatF interval [a, b] = [(a - b ^ 2 / 2) * interval, 0] := rfl

theorem gammamatF_pair (interval a b : ℝ) :
    Gbm.gammamatF interval [a, b] =
      [((a - b ^ 2 / 2) * interval) ^ 2 + (b * Real.sqrt interval) ^ 2, 0] := rfl

/-- Claim C5: for a GBM instance (with the source's hard-coded `instrlag = 2`,
`datalag = 1`) and data of length `nobs ≥ 2`, `momcond(theta, data)` returns a
moments matrix of shape `(nobs - 1, 2*(1+2))` and a gradient matrix of shape
`(2*(1+2), 2)`: one moment column per (instrument × residual-type) pair and
one gradient row per moment column. -/
theorem momcond_shape (jac : (List ℝ → List ℝ) → List ℝ → List (List ℝ))
    (hjac : ∀ f x, (jac f x).length = (f x).length ∧
      ∀ row ∈ jac f x, row.length = x.length)
    (interval a b : ℝ) (data : List ℝ) (hd : 2 ≤ data.length) :
    ∃ mom dmom, Gbm.momcond jac interval [a, b] data = Except.ok (mom, dmom) ∧
      mom.length = data.length - 1 ∧ (∀ row ∈ mom, row.length = 2 * (1 + 2)) ∧
      dmom.length = 2 * (1 + 2) ∧ (∀ row ∈ dmom, row.length = 2) := by
  have hbeta := betamat_scalar interval a b []
  have hgamma := gammamat_scalar interval a b []
  -- the components of the momcond body, named as in the source
  set beta : List ℝ := [(a - b ^ 2 / 2) * interval, 0] with hbeta_def
  set gamma : List ℝ :=
    [((a - b ^ 2 / 2) * interval) ^ 2 + (b * Real.sqrt interval) ^ 2, 0] with hgamma_def
  set lagdata := (Gbm.lagmat data 1).drop 1 with hlagdata_def
  set datamat := lagdata.map (fun row => 1 :: row) with hdatamat_def
  set instrMat := (Gbm.lagmat data.dropLast 2).map (fun row => 1 :: row) with hinstrMat_def
  set instruments := Gbm.npTranspose instrMat with hinstruments_def
  -- shapes of the pieces
  have hlagdata_len : lagdata.length = data.length - 1 := by
    rw [hlagdata_def, List.length_drop, lagmat_length]
  have hdatamat_len : datamat.length = data.length - 1 := by
    rw [hdatamat_def, List.length_map, hlagdata_len]
  have herr0_len :
      (List.zipWith (fun y row => y - Gbm.dot row beta) (data.drop 1) datamat).length =
        data.length - 1 := by
    rw [List.length_zipWith, List.length_drop, hdatamat_len, Nat.min_self]
  have herr1_len :
      (List.zipWith (fun y row => y ^ 2 - Gbm.dot row gamma) (data.drop 1) datamat).length =
        data.length - 1 := by
    rw [List.length_zipWith, List.length_drop, hdatamat_len, Nat.min_self]
  have hinstrMat_len : instrMat.length = data.length - 1 := by
    rw [hinstrMat_def, List.length_map, lagmat_length, List.length_dropLast]
  have hinstrMat_ne : instrMat ≠ [] := by
    rw [Ne, ← List.length_eq_zero, hinstrMat_len]
    omega
  have hinstrMat_rows : ∀ row ∈ instrMat, row.length = 3 := by
    intro row hrow
    rw [hinstrMat_def] at hrow
    simp only [List.mem_map] at hrow
    obtain ⟨r, hr, rfl⟩ := hrow
    rw [List.length_cons, lagmat_mem_length data.dropLast 2 r hr]
  have hinstr_len : instruments.length = 3 := by
    rw [hinstruments_def, npTranspose_length]
    exact hinstrMat_rows _ (headD_mem _ _ hinstrMat_ne)
  have hinstr_rows : ∀ i ∈ instruments, i.length = data.length - 1 := by
    intro i hi
    rw [hinstruments_def] at hi
    rw [npTranspose_mem_length instrMat i hi, hinstrMat_len]
  -- the stacked moment matrix before the final transpose
  set mom := (instruments.map (fun instr =>
      [List.zipWith (fun x y => x * y)
        (List.zipWith (fun y row => y - Gbm.dot row beta) (data.drop 1) datamat) instr,
       List.zipWith (fun x y => x * y)
        (List.zipWith (fun y row => y ^ 2 - Gbm.dot row gamma) (data.drop 1) datamat)
        instr])).flatten
    with hmom_def
  have hmom_len : mom.length = 6 := by
    rw [hmom_def,
      length_flatten_const _ 2 (by
        intro blk hblk
        simp only [List.mem_map] at hblk
        obtain ⟨instr, _, rfl⟩ := hblk
        rfl),
      List.length_map, hinstr_len]
  have hmom_rows : ∀ row ∈ mom, row.length = data.length - 1 := by
    intro row hrow
    rw [hmom_def] at hrow
    rw [List.mem_flatten] at hrow
    obtain ⟨blk, hblk, hrowblk⟩ := hrow
    simp only [List.mem_map] at hblk
    obtain ⟨instr, hinstr, rfl⟩ := hblk
    simp only [List.mem_cons, List.not_mem_nil, or_false] at hrowblk
    rcases hrowblk with rfl | rfl
    · rw [List.length_zipWith, herr0_len, hinstr_rows instr hinstr, Nat.min_self]
    · rw [List.length_zipWith, herr1_len, hinstr_rows instr hinstr, Nat.min_self]
  have hmom_ne : mom ≠ [] := by
    rw [Ne, ← List.length_eq_zero, hmom_len]
    omega
  -- the gradient blocks
  have hjacB := hjac (Gbm.betamatF interval) [a, b]
  have hjacG := hjac (Gbm.gammamatF interval) [a, b]
  set dbeta := jac (Gbm.betamatF interval) [a, b] with hdbeta_def
  set dgamma := jac (Gbm.gammamatF interval) [a, b] with hdgamma_def
  have hdbeta_len : dbeta.length = 2 := by
    rw [hdbeta_def, hjacB.1, betamatF_pair]
    rfl
  have hdgamma_len : dgamma.length = 2 := by
    rw [hdgamma_def, hjacG.1, gammamatF_pair]
    rfl
  have hdbeta_ne : dbeta ≠ [] := by
    rw [Ne, ← List.length_eq_zero, hdbeta_len]
    omega
  have hdgamma_ne : dgamma ≠ [] := by
    rw [Ne, ← List.length_eq_zero, hdgamma_len]
    omega
  have hdbetaT_len : (Gbm.npTranspose dbeta).length = 2 := by
    rw [npTranspose_length]
    have := hjacB.2 _ (headD_mem dbeta [] hdbeta_ne)
    rw [this]
    rfl
  have hdgammaT_len : (Gbm.npTranspose dgamma).length = 2 := by
    rw [npTranspose_length]
    have := hjacG.2 _ (headD_mem dgamma [] hdgamma_ne)
    rw [this]
    rfl
  set nobs := lagdata.length with hnobs_def
  set dmom := (instruments.map (fun instr =>
      [(Gbm.npTranspose dbeta).map (fun col =>
          -(Gbm.dot ((Gbm.npTranspose datamat).map (fun col =>
            (List.zipWith (fun x y => x * y) col instr).sum / (nobs : ℝ))) col)),
       (Gbm.npTranspose dgamma).map (fun col =>
          -(Gbm.dot ((Gbm.npTranspose datamat).map (fun col =>
            (List.zipWith (fun x y => x * y) col instr).sum / (nobs : ℝ))) col))])).flatten
    with hdmom_def
  have hdmom_len : dmom.length = 6 := by
    rw [hdmom_def,
      length_flatten_const _ 2 (by
        intro blk hblk
        simp only [List.mem_map] at hblk
        obtain ⟨instr, _, rfl⟩ := hblk
        rfl),
      List.length_map, hinstr_len]
  have hdmom_rows : ∀ row ∈ dmom, row.length = 2 := by
    intro row hrow
    rw [hdmom_def] at hrow
    rw [List.mem_flatten] at hrow
    obtain ⟨blk, hblk, hrowblk⟩ := hrow
    simp only [List.mem_map] at hblk
    obtain ⟨instr, hinstr, rfl⟩ := hblk
    simp only [List.mem_cons, List.not_mem_nil, or_false] at hrowblk
    rcases hrowblk with rfl | rfl
    · rw [List.length_map, hdbetaT_len]
    · rw [List.length_map, hdgammaT_len]
  -- assemble: the momcond body reduces definitionally to the named pieces
  refine ⟨Gbm.npTranspose mom, dmom, ?_, ?_, ?_, hdmom_len, hdmom_rows⟩
  · simp only [Gbm.momcond, List.map_cons, List.map_nil, hbeta, hgamma]
  · rw [npTranspose_length]
    exact hmom_rows _ (headD_mem mom [] hmom_ne)
  · intro row hrow
    rw [npTranspose_mem_length mom row hrow, hmom_len]

/-- Witness for C5: a concrete run with `data = [1, 2, 3]`, `theta = [2, 3]`
and a shape-correct Jacobian operator. -/
theorem momcond_shape_witness :
    (2 ≤ [(1 : ℝ), 2, 3].length) ∧
    ∃ mom dmom,
      Gbm.momcond (fun f x => (f x).map (fun _ => x.map (fun _ => 0))) 1 [2, 3]
          [(1 : ℝ), 2, 3] = Except.ok (mom, dmom) ∧
        mom.length = [(1 : ℝ), 2, 3].length - 1 ∧
        (∀ row ∈ mom, row.length = 2 * (1 + 2)) ∧
        dmom.length = 2 * (1 + 2) ∧ (∀ row ∈ dmom, row.length = 2) :=
  ⟨by norm_num,
    momcond_shape (fun f x => (f x).map (fun _ => x.map (fun _ => 0)))
      (fun f x =>
        ⟨by simp, by
          intro row hrow
          simp only [List.mem_map] at hrow
          obtain ⟨y, _, rfl⟩ := hrow
          simp⟩)
      1 2 3 [(1 : ℝ), 2, 3] (by norm_num)⟩

end Diffusions
